import Mathlib

/-!
Verification of the search-process manager plugin (`main.py`) against its
natural-language specification.  The Python source is shallowly embedded:
pure helpers become Lean functions, the stateful session becomes explicit
state passing, and subprocess side effects become explicit action traces.
-/

namespace GameThemeMusic

/-! ## Python string helpers -/

/-- Characters stripped by Python `bytes.strip()` / `str.strip()`:
space, tab, newline, carriage return, vertical tab, form feed. -/
def isPyStripWs (c : Char) : Bool :=
  c == ' ' || c == '\t' || c == '\n' || c == '\r' || c == '\x0b' || c == '\x0c'

/-- Model of Python `.strip()`: remove leading and trailing whitespace. -/
def pyStrip (s : String) : String :=
  ⟨((s.data.dropWhile isPyStripWs).reverse.dropWhile isPyStripWs).reverse⟩

/-- Model of Python `str.startswith`. -/
def pyStartsWith (s pre : String) : Bool :=
  pre.data.isPrefixOf s.data

/-- Model of Python `str.endswith`. -/
def pyEndsWith (s suf : String) : Bool :=
  suf.data.isSuffixOf s.data

/-- Model of Python `os.path.join(a, b)` for a single extra component. -/
def pyJoin (a b : String) : String :=
  if pyStartsWith b "/" then b
  else if a = "" then b
  else if pyEndsWith a "/" then a ++ b
  else a ++ "/" ++ b

/-! ## JSON values

Model of the Python `json` module as used by `main.py`: `json.loads`
parses one document, dictionaries keep the last binding of a repeated key,
numbers are kept as their source lexeme (the program never computes with
them). -/

/-- A parsed JSON value as produced by `json.loads`. -/
inductive Json where
  | null
  | bool (b : Bool)
  | num (lit : String)
  | str (s : String)
  | arr (items : List Json)
  | obj (fields : List (String × Json))
deriving Repr

/-- Whitespace the JSON grammar allows between tokens. -/
def isJsonWs (c : Char) : Bool :=
  c == ' ' || c == '\t' || c == '\n' || c == '\r'

/-- Opening brace character (code 123). -/
def lbrace : Char := Char.ofNat 123

/-- Closing brace character (code 125). -/
def rbrace : Char := Char.ofNat 125

/-- Value of a hexadecimal digit, if the character is one. -/
def hexVal (c : Char) : Option Nat :=
  if '0' ≤ c ∧ c ≤ '9' then some (c.toNat - '0'.toNat)
  else if 'a' ≤ c ∧ c ≤ 'f' then some (c.toNat - 'a'.toNat + 10)
  else if 'A' ≤ c ∧ c ≤ 'F' then some (c.toNat - 'A'.toNat + 10)
  else none

/-- Body of a JSON string after the opening quote, accumulating decoded
characters; mirrors the strict Python decoder (no raw control characters,
only the standard escapes). -/
def parseStrBody : List Char → List Char → Except String (String × List Char)
  | [], _ => .error "unterminated string"
  | c :: rest, acc =>
    if c == '"' then .ok (⟨acc.reverse⟩, rest)
    else if c == '\\' then
      match rest with
      | [] => .error "unterminated escape"
      | e :: rest' =>
        if e == '"' then parseStrBody rest' ('"' :: acc)
        else if e == '\\' then parseStrBody rest' ('\\' :: acc)
        else if e == '/' then parseStrBody rest' ('/' :: acc)
        else if e == 'b' then parseStrBody rest' ('\x08' :: acc)
        else if e == 'f' then parseStrBody rest' ('\x0c' :: acc)
        else if e == 'n' then parseStrBody rest' ('\n' :: acc)
        else if e == 'r' then parseStrBody rest' ('\r' :: acc)
        else if e == 't' then parseStrBody rest' ('\t' :: acc)
        else if e == 'u' then
          match rest' with
          | h₁ :: h₂ :: h₃ :: h₄ :: rest'' =>
            match hexVal h₁, hexVal h₂, hexVal h₃, hexVal h₄ with
            | some v₁, some v₂, some v₃, some v₄ =>
              parseStrBody rest'' (Char.ofNat (((v₁ * 16 + v₂) * 16 + v₃) * 16 + v₄) :: acc)
            | _, _, _, _ => .error "invalid \\u escape"
          | _ => .error "invalid \\u escape"
        else .error "invalid escape"
    else if c.toNat < 0x20 then .error "control character in string"
    else parseStrBody rest (c :: acc)

/-- Longest prefix of decimal digits, with the remainder. -/
def spanDigits (cs : List Char) : List Char × List Char :=
  (cs.takeWhile Char.isDigit, cs.dropWhile Char.isDigit)

/-- Integer part of a JSON number: `0`, or a nonzero digit then digits. -/
def parseIntPart : List Char → Option (List Char × List Char)
  | [] => none
  | c :: rest =>
    if c == '0' then some ([c], rest)
    else if c.isDigit then
      let (ds, rest') := spanDigits rest
      some (c :: ds, rest')
    else none

/-- Lexeme of a JSON number starting at the input, if any
(sign, integer part, optional fraction, optional exponent). -/
def parseNumLexeme (cs : List Char) : Option (List Char × List Char) := do
  let (sign, cs₁) :=
    match cs with
    | '-' :: t => (['-'], t)
    | _ => ([], cs)
  let (ip, cs₂) ← parseIntPart cs₁
  let (frac, cs₃) :=
    match cs₂ with
    | '.' :: ds =>
      let (fs, rest) := spanDigits ds
      if fs = [] then ([], cs₂) else ('.' :: fs, rest)
    | _ => ([], cs₂)
  let (ex, cs₄) :=
    match cs₃ with
    | e :: es =>
      if e == 'e' || e == 'E' then
        let (esign, es') :=
          match es with
          | s :: ss => if s == '+' || s == '-' then ([s], ss) else ([], es)
          | [] => ([], es)
        let (ds, rest) := spanDigits es'
        if ds = [] then ([], cs₃) else (e :: (esign ++ ds), rest)
      else ([], cs₃)
    | [] => ([], cs₃)
  if frac = [] ∧ ex = [] then
    some (sign ++ ip, cs₂)
  else
    some (sign ++ ip ++ frac ++ ex, cs₄)

mutual

/-- Parse one JSON value (fuel-indexed recursion). -/
def parseVal : Nat → List Char → Except String (Json × List Char)
  | 0, _ => .error "out of fuel"
  | fuel + 1, cs =>
    match cs.dropWhile isJsonWs with
    | 'n' :: 'u' :: 'l' :: 'l' :: r => .ok (.null, r)
    | 't' :: 'r' :: 'u' :: 'e' :: r => .ok (.bool true, r)
    | 'f' :: 'a' :: 'l' :: 's' :: 'e' :: r => .ok (.bool false, r)
    | 'N' :: 'a' :: 'N' :: r => .ok (.num "NaN", r)
    | 'I' :: 'n' :: 'f' :: 'i' :: 'n' :: 'i' :: 't' :: 'y' :: r =>
      .ok (.num "Infinity", r)
    | '-' :: 'I' :: 'n' :: 'f' :: 'i' :: 'n' :: 'i' :: 't' :: 'y' :: r =>
      .ok (.num "-Infinity", r)
    | '"' :: r =>
      match parseStrBody r [] with
      | .ok (s, rest) => .ok (.str s, rest)
      | .error e => .error e
    | '[' :: r =>
      match r.dropWhile isJsonWs with
      | ']' :: rest => .ok (.arr [], rest)
      | _ => match parseArrItems fuel r with
        | .ok (items, rest) => .ok (.arr items, rest)
        | .error e => .error e
    | c :: r =>
      if c == lbrace then
        match r.dropWhile isJsonWs with
        | x :: rest =>
          if x == rbrace then .ok (.obj [], rest)
          else match parseObjItems fuel r with
            | .ok (flds, rest') => .ok (.obj flds, rest')
            | .error e => .error e
        | [] => .error "unterminated object"
      else
        match parseNumLexeme (c :: r) with
        | some (lex, rest) => .ok (.num ⟨lex⟩, rest)
        | none => .error "expecting value"
    | [] => .error "expecting value"

/-- Parse the items of a non-empty JSON array, including the closing
bracket; the input starts right after `[` or after a comma. -/
def parseArrItems : Nat → List Char → Except String (List Json × List Char)
  | 0, _ => .error "out of fuel"
  | fuel + 1, cs =>
    match parseVal fuel cs with
    | .error e => .error e
    | .ok (v, rest) =>
      match rest.dropWhile isJsonWs with
      | ',' :: rest' =>
        match parseArrItems fuel rest' with
        | .ok (items, rest'') => .ok (v :: items, rest'')
        | .error e => .error e
      | ']' :: rest' => .ok ([v], rest')
      | _ => .error "expecting comma or close bracket"

/-- Parse the members of a non-empty JSON object, including the closing
brace; the input starts right after the opening brace or after a comma. -/
def parseObjItems : Nat → List Char → Except String (List (String × Json) × List Char)
  | 0, _ => .error "out of fuel"
  | fuel + 1, cs =>
    match cs.dropWhile isJsonWs with
    | '"' :: r =>
      match parseStrBody r [] with
      | .error e => .error e
      | .ok (key, rest) =>
        match rest.dropWhile isJsonWs with
        | ':' :: rest' =>
          match parseVal fuel rest' with
          | .error e => .error e
          | .ok (v, rest'') =>
            match rest''.dropWhile isJsonWs with
            | ',' :: rest₃ =>
              match parseObjItems fuel rest₃ with
              | .ok (flds, rest₄) => .ok ((key, v) :: flds, rest₄)
              | .error e => .error e
            | x :: rest₃ =>
              if x == rbrace then .ok ([(key, v)], rest₃)
              else .error "expecting comma or close brace"
            | [] => .error "unterminated object"
        | _ => .error "expecting colon"
    | _ => .error "expecting property name"

end

/-- Model of Python `json.loads` on an already-decoded string. -/
def json_loads (s : String) : Except String Json :=
  match parseVal (2 * s.data.length + 2) s.data with
  | .error e => .error e
  | .ok (j, rest) =>
    if (rest.dropWhile isJsonWs).isEmpty then .ok j
    else .error "Extra data"

/-! ## JSON serialization (model of `json.dump` with its defaults) -/

/-- Lowercase hexadecimal digit. -/
def hexDigit (n : Nat) : Char :=
  if n < 10 then Char.ofNat ('0'.toNat + n) else Char.ofNat ('a'.toNat + n - 10)

/-- Four-digit hexadecimal rendering of a code unit. -/
def hex4 (n : Nat) : List Char :=
  [hexDigit (n / 4096 % 16), hexDigit (n / 256 % 16), hexDigit (n / 16 % 16), hexDigit (n % 16)]

/-- Escape one character the way `json.dump` does with `ensure_ascii=True`:
short escapes for the usual controls, `\uXXXX` (with surrogate pairs) for
other controls and all non-ASCII characters. -/
def escapeChar (c : Char) : List Char :=
  if c == '"' then ['\\', '"']
  else if c == '\\' then ['\\', '\\']
  else if c == '\n' then ['\\', 'n']
  else if c == '\r' then ['\\', 'r']
  else if c == '\t' then ['\\', 't']
  else if c == '\x08' then ['\\', 'b']
  else if c == '\x0c' then ['\\', 'f']
  else if c.toNat < 0x20 || c.toNat > 0x7e then
    if c.toNat ≤ 0xffff then '\\' :: 'u' :: hex4 c.toNat
    else
      let n := c.toNat - 0x10000
      ('\\' :: 'u' :: hex4 (0xd800 + n / 0x400)) ++ ('\\' :: 'u' :: hex4 (0xdc00 + n % 0x400))
  else [c]

/-- Serialize a string with surrounding quotes. -/
def dumpStr (s : String) : String :=
  "\"" ++ ⟨(s.data.map escapeChar).flatten⟩ ++ "\""

mutual

/-- Model of Python `json.dump` with default options
(item separator comma-space, key separator colon-space). -/
def json_dumps : Json → String
  | .null => "null"
  | .bool true => "true"
  | .bool false => "false"
  | .num lit => lit
  | .str s => dumpStr s
  | .arr items => "[" ++ dumpItems items ++ "]"
  | .obj flds => "\x7b" ++ dumpFields flds ++ "\x7d"

/-- Comma-separated serialization of array items. -/
def dumpItems : List Json → String
  | [] => ""
  | [x] => json_dumps x
  | x :: y :: xs => json_dumps x ++ ", " ++ dumpItems (y :: xs)

/-- Comma-separated serialization of object members. -/
def dumpFields : List (String × Json) → String
  | [] => ""
  | [(k, v)] => dumpStr k ++ ": " ++ json_dumps v
  | (k, v) :: m :: xs => dumpStr k ++ ": " ++ json_dumps v ++ ", " ++ dumpFields (m :: xs)

end

/-! ## ResultLineDecoder: `entry_to_info` -/

/-- Errors the Python code can raise on the result path: a `json.loads`
failure, a missing dictionary key, or subscripting a non-dictionary. -/
inductive PyErr where
  | jsonError (msg : String)
  | keyError (key : String)
  | typeError
deriving Repr, DecidableEq

/-- A normalized search hit (the dictionary built by `entry_to_info`). -/
structure ResultRecord where
  url : Json
  title : Json
  id : Json
  thumbnail : Json
deriving Repr

/-- Python dictionary lookup on a parsed JSON object: with a repeated key
the last binding wins, as in a dict built by `json.loads`. -/
def pyGet (flds : List (String × Json)) (k : String) : Option Json :=
  (flds.reverse.find? (fun p => p.1 == k)).map (fun p => p.2)

/-- Embedding of `Plugin.entry_to_info`: subscripts the parsed entry at
`url`, `title`, `id`, `thumbnail` in that order; a missing key raises
`KeyError`, subscripting a non-dictionary raises `TypeError`. -/
def entry_to_info (entry : Json) : Except PyErr ResultRecord :=
  match entry with
  | .obj flds =>
    match pyGet flds "url" with
    | none => .error (.keyError "url")
    | some u =>
      match pyGet flds "title" with
      | none => .error (.keyError "title")
      | some t =>
        match pyGet flds "id" with
        | none => .error (.keyError "id")
        | some i =>
          match pyGet flds "thumbnail" with
          | none => .error (.keyError "thumbnail")
          | some th => .ok ⟨u, t, i, th⟩
  | _ => .error .typeError

/-- Decode one stripped line as `next_yt_result` does: `json.loads`, then
`entry_to_info`; either failure propagates. -/
def decodeLine (line : String) : Except PyErr ResultRecord :=
  match json_loads line with
  | .error e => .error (.jsonError e)
  | .ok entry => entry_to_info entry

/-! ## SearchSession state and `next_yt_result`

The subprocess handle is modelled by its exit status and whether stdout
was captured; its stdout stream is modelled by the list of lines
`readline` will deliver (each necessarily nonempty: at end of stream
`readline` returns the empty string, and only there) plus a read
position. -/

/-- Observable state of one subprocess handle. -/
structure ProcHandle where
  returncode : Option Int
  stdoutPiped : Bool
deriving Repr, DecidableEq

/-- State of the plugin's search session as `next_yt_result` sees it. -/
structure Session where
  proc : Option ProcHandle
  lines : List String
  pos : Nat
deriving Repr

/-- Model of `StreamReader.readline`: the next line, or `""` at end of
stream. -/
def readLine (s : Session) : String :=
  s.lines.getD s.pos ""

/-- Embedding of `Plugin.next_yt_result` (the body runs under the session
lock; sequential calls are modelled directly).  Returns the Python result
(`None`, a record, or a raised error) and the successor state. -/
def next_yt_result (s : Session) : Except PyErr (Option ResultRecord) × Session :=
  match s.proc with
  | none => (.ok none, s)
  | some p =>
    if p.stdoutPiped = false then (.ok none, s)
    else
      let raw := readLine s
      let s' : Session := ⟨s.proc, s.lines, s.pos + 1⟩
      let line := pyStrip raw
      if line = "" then (.ok none, s')
      else
        match decodeLine line with
        | .error e => (.error e, s')
        | .ok r => (.ok (some r), s')

/-- Outcomes of `n` successive `next_yt_result` calls, with final state. -/
def runCalls : Nat → Session → List (Except PyErr (Option ResultRecord)) × Session
  | 0, s => ([], s)
  | n + 1, s =>
    let (r, s') := next_yt_result s
    let (rs, s'') := runCalls n s'
    (r :: rs, s'')

/-! ## Process lifecycle actions: `search_yt` and `_unload` -/

/-- Externally visible subprocess operations, in program order. -/
inductive PAction where
  | terminate
  | awaitExit
  | waitTimeout
  | kill
  | spawn (args : List String)
deriving Repr, DecidableEq

/-- Argument vector `search_yt` passes to the external tool (after the
executable path): at most 10 search results, JSON lines, best audio, and
the match filter `duration<?1200`. -/
def searchArgs (term : String) : List String :=
  ["ytsearch10:" ++ term, "-j", "-f", "bestaudio", "--match-filters",
   "duration<?" ++ toString (20 * 60)]

/-- Fresh handle stored by `search_yt`: running, stdout piped. -/
def freshHandle : ProcHandle := ⟨none, true⟩

/-- Embedding of `Plugin.search_yt`'s process lifecycle: when the stored
handle is still running it is terminated and `communicate()` is awaited,
then the new subprocess is spawned and becomes the sole stored handle. -/
def search_yt (term : String) (proc : Option ProcHandle) : List PAction × Option ProcHandle :=
  let pre : List PAction :=
    match proc with
    | some p => if p.returncode = none then [.terminate, .awaitExit] else []
    | none => []
  (pre ++ [.spawn (searchArgs term)], some freshHandle)

/-- Embedding of `Plugin._unload`: nothing happens unless a handle exists
and is still running; then `terminate()` is called and `communicate()` is
awaited with a 5-second timeout, escalating to `kill()` on timeout.
`exitsWithinTimeout` says whether the process exits inside the window. -/
def _unload (proc : Option ProcHandle) (exitsWithinTimeout : Bool) : List PAction :=
  match proc with
  | none => []
  | some p =>
    if p.returncode ≠ none then []
    else
      .terminate :: (if exitsWithinTimeout then [.awaitExit] else [.waitTimeout, .kill])

/-! ## LocalLibraryIndex: `local_match` and `download_yt_audio` -/

/-- One entry of a directory listing, with its `os.path.isfile` status. -/
structure DirEntry where
  name : String
  isFile : Bool
deriving Repr, DecidableEq

/-- Embedding of `Plugin.local_match`: scan the music directory (a missing
directory raises `FileNotFoundError`, caught and treated as no match) and
return the joined path of the first regular file whose name starts with
`id ++ "."`. -/
def local_match (musicPath : String) (id : String) (dir : Option (List DirEntry)) :
    Option String :=
  match dir with
  | none => none
  | some entries =>
    (entries.find? (fun e => e.isFile && pyStartsWith e.name (id ++ "."))).map
      (fun e => pyJoin musicPath e.name)

/-- Embedding of `Plugin.download_yt_audio`: if a local match exists the
call returns at once (no subprocess).  Otherwise the external tool runs to
completion, adding its output files to the directory, and if `<id>.m4a`
then exists it is renamed to `<id>.webm` (`os.rename`, replacing any
existing target).  Returns whether a subprocess was spawned and the final
directory. -/
def download_yt_audio (musicPath : String) (id : String) (dir : Option (List DirEntry))
    (toolOutput : List String) : Bool × Option (List DirEntry) :=
  if (local_match musicPath id dir).isSome then (false, dir)
  else
    let entries := dir.getD [] ++ toolOutput.map (fun n => ⟨n, true⟩)
    let src := id ++ ".m4a"
    let dst := id ++ ".webm"
    match entries.find? (fun e => e.name == src) with
    | some e =>
      (true, some ((entries.filter (fun x => x.name != src && x.name != dst)) ++ [⟨dst, e.isFile⟩]))
    | none => (true, some entries)

/-! ## CacheArchiveStore: `export_cache`, `list_cache_backups`, `import_cache` -/

/-- Flat cache directory: filename to file content, at most one entry per
name. -/
structure CacheDir where
  files : List (String × String)
deriving Repr

/-- Writing with mode `"w"` creates or truncates the named file. -/
def fsWrite (d : CacheDir) (name content : String) : CacheDir :=
  ⟨(d.files.filter (fun p => p.1 != name)) ++ [(name, content)]⟩

/-- Reading a file's content, if the file exists. -/
def fsRead (d : CacheDir) (name : String) : Option String :=
  (d.files.find? (fun p => p.1 == name)).map (fun p => p.2)

/-- Python `s.rsplit(".", 1)[0]`: everything before the last dot, or the
whole string when there is none. -/
def rsplitDot1 (s : String) : String :=
  let r := s.data.reverse
  if r.any (fun c => c == '.') then ⟨((r.dropWhile (fun c => c != '.')).drop 1).reverse⟩
  else s

/-- Embedding of `Plugin.export_cache`: ensure the cache directory exists
and write the serialized snapshot to `backup-<timestamp>.json` (`now` is
the formatted local timestamp). -/
def export_cache (now : String) (cache : Json) (d : CacheDir) : CacheDir :=
  fsWrite d ("backup-" ++ now ++ ".json") (json_dumps cache)

/-- Embedding of `Plugin.list_cache_backups`: names of the files in the
cache directory, each with its last extension removed; a missing directory
yields the empty list. -/
def list_cache_backups (d : Option CacheDir) : List String :=
  match d with
  | none => []
  | some dir => dir.files.map (fun p => rsplitDot1 p.1)

/-- Embedding of `Plugin.import_cache`: re-append `.json`, open the file
(a missing file raises) and parse its content. -/
def import_cache (d : CacheDir) (name : String) : Except String Json :=
  match fsRead d (name ++ ".json") with
  | none => .error "FileNotFoundError"
  | some content => json_loads content

/-! ## Concurrent readers of `next_yt_result`

Two tasks race to call `next_yt_result` on one session.  Each must hold the
session's `asyncio.Lock` across its single `readline`; the event loop
interleaves the tasks arbitrarily otherwise.  A task records the index of
the line its read consumed. -/

/-- Program counter of one caller task. -/
inductive RPc where
  | idle
  | locked
  | haveRead
  | done
deriving Repr, DecidableEq

/-- Interleaving state: lock owner, stream read position, and each task's
program counter and consumed line index. -/
structure RState where
  lock : Option (Fin 2)
  pos : Nat
  res : Fin 2 → Option Nat
  pc : Fin 2 → RPc

/-- One event-loop step: acquire the free lock, perform the line read
while holding it, or release it. -/
inductive RStep : RState → RState → Prop where
  | acquire (s : RState) (t : Fin 2) :
      s.pc t = .idle → s.lock = none →
      RStep s ⟨some t, s.pos, s.res, Function.update s.pc t .locked⟩
  | read (s : RState) (t : Fin 2) :
      s.pc t = .locked → s.lock = some t →
      RStep s ⟨s.lock, s.pos + 1, Function.update s.res t (some s.pos),
               Function.update s.pc t .haveRead⟩
  | release (s : RState) (t : Fin 2) :
      s.pc t = .haveRead → s.lock = some t →
      RStep s ⟨none, s.pos, s.res, Function.update s.pc t .done⟩

/-- Both tasks about to call `next_yt_result`. -/
def RInit : RState := ⟨none, 0, fun _ => none, fun _ => .idle⟩

/-- States the event loop can reach from `RInit`. -/
def RReachable (s : RState) : Prop :=
  Relation.ReflTransGen RStep RInit s

/-! ## Theorems -/

/-- C1: a `search_yt` call made while the stored handle is still running
(`returncode` is `None`) first terminates it and awaits its exit via
`communicate()`, and only then spawns the new subprocess, which becomes the
session's sole stored handle; no kill is issued on this path. -/
theorem search_supersedes_running_handle (term : String) (p : ProcHandle)
    (h : p.returncode = none) :
    search_yt term (some p) =
      ([.terminate, .awaitExit, .spawn (searchArgs term)], some freshHandle) ∧
    PAction.kill ∉ (search_yt term (some p)).1 := by
  refine ⟨by simp [search_yt, h], ?_⟩
  simp [search_yt, h]

/-- Witness for C1 at a concrete running handle. -/
theorem search_supersedes_running_handle_witness :
    search_yt "a" (some freshHandle) =
      ([.terminate, .awaitExit, .spawn (searchArgs "a")], some freshHandle) ∧
    PAction.kill ∉ (search_yt "a" (some freshHandle)).1 :=
  search_supersedes_running_handle "a" freshHandle rfl

/-- C5: `_unload` on a running handle terminates it and awaits its exit
with a 5-second window; a process that exits inside the window is never
killed, one that does not is killed after the timeout; with no handle, or
a handle whose exit status is already set, nothing at all is done. -/
theorem unload_graceful_termination (p : ProcHandle) (e : Bool) :
    (p.returncode = none → e = true →
      _unload (some p) e = [.terminate, .awaitExit]) ∧
    (p.returncode = none → e = false →
      _unload (some p) e = [.terminate, .waitTimeout, .kill]) ∧
    (∀ rc : Int, p.returncode = some rc → _unload (some p) e = []) ∧
    _unload (none : Option ProcHandle) e = [] := by
  refine ⟨?_, ?_, ?_, rfl⟩ <;> intros <;> simp_all [_unload]

/-- Witness for C5: all three behaviors at concrete handles. -/
theorem unload_graceful_termination_witness :
    _unload (some ⟨none, true⟩) true = [.terminate, .awaitExit] ∧
    _unload (some ⟨none, true⟩) false = [.terminate, .waitTimeout, .kill] ∧
    _unload (some ⟨some 0, true⟩) true = [] ∧
    _unload (none : Option ProcHandle) true = [] :=
  ⟨(unload_graceful_termination ⟨none, true⟩ true).1 rfl rfl,
   (unload_graceful_termination ⟨none, true⟩ false).2.1 rfl rfl,
   (unload_graceful_termination ⟨some 0, true⟩ true).2.2.1 0 rfl,
   (unload_graceful_termination ⟨some 0, true⟩ true).2.2.2⟩

/-- C8 counterexample: the match filter the code passes is
`duration<?1200` (less than 1200, or duration unknown), not the claimed
`duration<=1200`. -/
theorem search_args_filter_counterexample :
    "duration<=1200" ∉ searchArgs "x" ∧ "duration<?1200" ∈ searchArgs "x" := by
  decide

/-- C8 amended: every search spawns the external tool with exactly the
arguments `ytsearch10:<term> -j -f bestaudio --match-filters
duration<?1200` (at most 10 candidates; items pass the filter when their
duration is under 1200 seconds or unknown). -/
theorem search_invocation_args (term : String) (proc : Option ProcHandle) :
    (search_yt term proc).1.getLast? =
      some (.spawn ["ytsearch10:" ++ term, "-j", "-f", "bestaudio",
                    "--match-filters", "duration<?1200"]) := by
  have h : searchArgs term = ["ytsearch10:" ++ term, "-j", "-f", "bestaudio",
      "--match-filters", "duration<?1200"] := rfl
  cases proc with
  | none => simp [search_yt, h]
  | some p =>
    by_cases hr : p.returncode = none <;>
      simp [search_yt, h, hr, List.getLast?_concat]

/-- C7 counterexample: with two files matching the id, `local_match`
silently returns the first match instead of raising an integrity error. -/
theorem local_match_multiple_counterexample :
    local_match "music" "abc" (some [⟨"abc.m4a", true⟩, ⟨"abc.webm", true⟩]) =
      some "music/abc.m4a" := rfl

/-- C7 amended: `local_match` returns `None` when the directory is missing
or no regular file's name starts with `id ++ "."`; when one or more files
match it returns the joined path of the first match in listing order (it
never raises on multiple matches). -/
theorem local_match_first_match (musicPath id : String) :
    local_match musicPath id none = none ∧
    (∀ entries : List DirEntry,
      (∀ e ∈ entries, ¬(e.isFile = true ∧ pyStartsWith e.name (id ++ ".") = true)) →
      local_match musicPath id (some entries) = none) ∧
    (∀ (pre : List DirEntry) (e : DirEntry) (post : List DirEntry),
      (∀ x ∈ pre, ¬(x.isFile = true ∧ pyStartsWith x.name (id ++ ".") = true)) →
      e.isFile = true → pyStartsWith e.name (id ++ ".") = true →
      local_match musicPath id (some (pre ++ e :: post)) =
        some (pyJoin musicPath e.name)) := by
  refine ⟨rfl, ?_, ?_⟩
  · intro entries h
    have hfind : entries.find? (fun e => e.isFile && pyStartsWith e.name (id ++ ".")) = none := by
      rw [List.find?_eq_none]
      intro e he
      simpa [Bool.and_eq_true] using h e he
    simp [local_match, hfind]
  · intro pre e post hpre hfile hmatch
    have hfindPre : pre.find? (fun x => x.isFile && pyStartsWith x.name (id ++ ".")) = none := by
      rw [List.find?_eq_none]
      intro x hx
      simpa [Bool.and_eq_true] using hpre x hx
    have hfindE : (e :: post).find? (fun x => x.isFile && pyStartsWith x.name (id ++ ".")) =
        some e := List.find?_cons_of_pos _ (by simp [hfile, hmatch])
    simp [local_match, List.find?_append, hfindPre, hfindE]

/-- Witness for C7's amended theorem: a non-matching listing gives `None`,
and with two matches after a non-match the first match's path is
returned. -/
theorem local_match_first_match_witness :
    local_match "music" "abc" (some [⟨"zzz.mp3", true⟩]) = none ∧
    local_match "music" "abc"
        (some ([⟨"zzz.mp3", true⟩] ++ ⟨"abc.m4a", true⟩ :: [⟨"abc.webm", true⟩])) =
      some (pyJoin "music" "abc.m4a") :=
  ⟨(local_match_first_match "music" "abc").2.1 [⟨"zzz.mp3", true⟩] (by decide),
   (local_match_first_match "music" "abc").2.2 [⟨"zzz.mp3", true⟩] ⟨"abc.m4a", true⟩
     [⟨"abc.webm", true⟩] (by decide) rfl (by decide)⟩

/-- Renaming to `.webm` never collides with the `.m4a` source name. -/
theorem append_webm_ne_m4a (s : String) : s ++ ".webm" ≠ s ++ ".m4a" := by
  intro h
  have hd := congrArg String.data h
  rw [String.data_append, String.data_append] at hd
  exact absurd (List.append_cancel_left hd) (by decide)

/-- C9: `download_yt_audio` with an existing local match is a no-op that
spawns no subprocess; with no local match, when the external tool produces
exactly `<id>.m4a`, the final directory contains `<id>.webm` and no longer
contains `<id>.m4a`. -/
theorem download_spec (musicPath id : String) (dir : Option (List DirEntry))
    (out : List String) :
    ((local_match musicPath id dir).isSome = true →
      download_yt_audio musicPath id dir out = (false, dir)) ∧
    (local_match musicPath id dir = none → out = [id ++ ".m4a"] →
      (download_yt_audio musicPath id dir out).1 = true ∧
      ∃ entries, (download_yt_audio musicPath id dir out).2 = some entries ∧
        (id ++ ".webm") ∈ entries.map DirEntry.name ∧
        (id ++ ".m4a") ∉ entries.map DirEntry.name) := by
  constructor
  · intro h
    simp [download_yt_audio, h]
  · intro hnone hout
    subst hout
    have hsome : (local_match musicPath id dir).isSome = false := by simp [hnone]
    have hex : ∃ e : DirEntry,
        ((dir.getD [] ++ [(⟨id ++ ".m4a", true⟩ : DirEntry)]).find?
            (fun x => x.name == id ++ ".m4a")) = some e := by
      cases h1 : (dir.getD []).find? (fun x => x.name == id ++ ".m4a") with
      | none => exact ⟨⟨id ++ ".m4a", true⟩, by rw [List.find?_append, h1]; simp⟩
      | some e => exact ⟨e, by rw [List.find?_append, h1]; rfl⟩
    obtain ⟨e, he⟩ := hex
    have hres : download_yt_audio musicPath id dir [id ++ ".m4a"] =
        (true, some (((dir.getD [] ++ [(⟨id ++ ".m4a", true⟩ : DirEntry)]).filter
            (fun x => x.name != id ++ ".m4a" && x.name != id ++ ".webm")) ++
          [(⟨id ++ ".webm", e.isFile⟩ : DirEntry)])) := by
      simp only [download_yt_audio, hsome, Bool.false_eq_true, if_false, List.map_cons,
        List.map_nil, he]
    rw [hres]
    refine ⟨rfl, _, rfl, ?_, ?_⟩
    · simp
    · intro hmem
      rw [List.map_append, List.mem_append] at hmem
      rcases hmem with hmem | hmem
      · obtain ⟨x, hx, hxname⟩ := List.mem_map.mp hmem
        have := (List.mem_filter.mp hx).2
        rw [hxname] at this
        simp at this
      · simp at hmem
        exact append_webm_ne_m4a id hmem.symm

/-- Witness for C9: a present local file makes the call a no-op, and a
fresh download of `abc` renames `abc.m4a` to `abc.webm`. -/
theorem download_spec_witness :
    download_yt_audio "music" "abc" (some [⟨"abc.mp3", true⟩]) [] =
      (false, some [⟨"abc.mp3", true⟩]) ∧
    ((download_yt_audio "music" "abc" (some []) ["abc.m4a"]).1 = true ∧
      ∃ entries, (download_yt_audio "music" "abc" (some []) ["abc.m4a"]).2 = some entries ∧
        ("abc" ++ ".webm") ∈ entries.map DirEntry.name ∧
        ("abc" ++ ".m4a") ∉ entries.map DirEntry.name) :=
  ⟨(download_spec "music" "abc" (some [⟨"abc.mp3", true⟩]) []).1 rfl,
   (download_spec "music" "abc" (some []) ["abc.m4a"]).2 rfl rfl⟩

/-- C4: a line that parses to a JSON object with all of `url`, `title`,
`id`, `thumbnail` decodes to exactly that record; the decode succeeds iff
the line parses to an object carrying all four fields (so it raises
exactly on malformed JSON or a missing field); and a decode error
propagates out of `next_yt_result` unchanged, never as the no-result
signal. -/
theorem entry_decode_spec (line : String) :
    (∀ (flds : List (String × Json)) (u t i th : Json),
      json_loads line = .ok (.obj flds) →
      pyGet flds "url" = some u → pyGet flds "title" = some t →
      pyGet flds "id" = some i → pyGet flds "thumbnail" = some th →
      decodeLine line = .ok ⟨u, t, i, th⟩) ∧
    ((∃ r, decodeLine line = .ok r) ↔
      ∃ flds, json_loads line = .ok (.obj flds) ∧
        (pyGet flds "url").isSome = true ∧ (pyGet flds "title").isSome = true ∧
        (pyGet flds "id").isSome = true ∧ (pyGet flds "thumbnail").isSome = true) ∧
    (∀ (s : Session) (p : ProcHandle) (err : PyErr),
      s.proc = some p → p.stdoutPiped = true →
      pyStrip (readLine s) ≠ "" → decodeLine (pyStrip (readLine s)) = .error err →
      (next_yt_result s).1 = .error err) := by
  refine ⟨?_, ?_, ?_⟩
  · intro flds u t i th hl hu ht hi hth
    simp [decodeLine, hl, entry_to_info, hu, ht, hi, hth]
  · cases hl : json_loads line with
    | error e => simp [decodeLine, hl]
    | ok j =>
      cases j <;> simp [decodeLine, hl, entry_to_info]
      case obj flds =>
        cases hu : pyGet flds "url" <;> cases ht : pyGet flds "title" <;>
          cases hi : pyGet flds "id" <;> cases hth : pyGet flds "thumbnail" <;>
          simp [hu, ht, hi, hth]
  · intro s p err hp hpipe hne hdec
    simp [next_yt_result, hp, hpipe, hne, decodeLine] at hdec ⊢
    simp [hdec]

/-- Witness for C4: the canonical four-field line decodes to its record,
and a malformed line surfaces from `next_yt_result` as the raised decode
error. -/
theorem entry_decode_spec_witness :
    decodeLine "\x7b\"url\": \"u\", \"title\": \"t\", \"id\": \"i\", \"thumbnail\": \"th\"\x7d" =
      .ok ⟨.str "u", .str "t", .str "i", .str "th"⟩ ∧
    (next_yt_result ⟨some freshHandle, ["notjson"], 0⟩).1 =
      .error (.jsonError "expecting value") :=
  ⟨(entry_decode_spec "\x7b\"url\": \"u\", \"title\": \"t\", \"id\": \"i\", \"thumbnail\": \"th\"\x7d").1
      [("url", .str "u"), ("title", .str "t"), ("id", .str "i"), ("thumbnail", .str "th")]
      (.str "u") (.str "t") (.str "i") (.str "th") rfl rfl rfl rfl rfl,
   (entry_decode_spec "notjson").2.2 ⟨some freshHandle, ["notjson"], 0⟩ freshHandle
      (.jsonError "expecting value") rfl rfl (by decide) rfl⟩

/-- Helper for C2: from any read position, successive calls first deliver
the remaining records in order and then the no-result signal. -/
theorem runCalls_stream_aux (p : ProcHandle) (lines : List String)
    (recs : List ResultRecord) (hp : p.stdoutPiped = true)
    (hlen : lines.length = recs.length)
    (hdec : ∀ (i : Nat) (h : i < lines.length) (h' : i < recs.length),
      pyStrip lines[i] ≠ "" ∧ decodeLine (pyStrip lines[i]) = .ok recs[i]) :
    ∀ (n pos : Nat), (runCalls n ⟨some p, lines, pos⟩).1 =
      ((recs.drop pos).take n).map (fun r => Except.ok (some r)) ++
        List.replicate (n - (recs.length - pos)) (Except.ok none) := by
  intro n
  induction n with
  | zero => intro pos; simp [runCalls]
  | succ n ih =>
    intro pos
    by_cases hpos : pos < lines.length
    · have hpos' : pos < recs.length := hlen ▸ hpos
      obtain ⟨hne, hdc⟩ := hdec pos hpos hpos'
      have hsome : lines[pos]? = some lines[pos] := List.getElem?_eq_getElem hpos
      have hr : next_yt_result ⟨some p, lines, pos⟩ =
          (.ok (some recs[pos]), ⟨some p, lines, pos + 1⟩) := by
        simp [next_yt_result, hp, readLine, List.getD, hsome, hne, hdc]
      have hstep : (runCalls (n + 1) ⟨some p, lines, pos⟩).1 =
          .ok (some recs[pos]) :: (runCalls n ⟨some p, lines, pos + 1⟩).1 := by
        simp [runCalls, hr]
      rw [hstep, ih (pos + 1), List.drop_eq_getElem_cons hpos', List.take_succ_cons,
        List.map_cons]
      have : n + 1 - (recs.length - pos) = n - (recs.length - (pos + 1)) := by omega
      rw [this]
      rfl
    · have hge : lines.length ≤ pos := le_of_not_lt hpos
      have hge' : recs.length ≤ pos := hlen ▸ hge
      have hnil : lines[pos]? = none := List.getElem?_eq_none hge
      have hr : next_yt_result ⟨some p, lines, pos⟩ =
          (.ok none, ⟨some p, lines, pos + 1⟩) := by
        simp [next_yt_result, hp, readLine, List.getD, hnil, pyStrip]
      have hstep : (runCalls (n + 1) ⟨some p, lines, pos⟩).1 =
          .ok none :: (runCalls n ⟨some p, lines, pos + 1⟩).1 := by
        simp [runCalls, hr]
      rw [hstep, ih (pos + 1), List.drop_eq_nil_of_le hge', List.drop_eq_nil_of_le
        (le_trans hge' (Nat.le_succ_of_le le_rfl))]
      have h1 : recs.length - pos = 0 := by omega
      have h2 : recs.length - (pos + 1) = 0 := by omega
      simp [h1, h2, List.replicate_succ]

/-- C2: with a subprocess whose output is K well-formed JSON lines and
then end-of-stream, the first K `next_yt_result` calls return the K
records in output order and every later call returns `None`; moreover a
single call returns `None` exactly when there is no handle, stdout was not
captured, or the line read strips to empty. -/
theorem next_results_exactly_k (p : ProcHandle) (lines : List String)
    (recs : List ResultRecord) (hp : p.stdoutPiped = true)
    (hlen : lines.length = recs.length)
    (hdec : ∀ (i : Nat) (h : i < lines.length) (h' : i < recs.length),
      pyStrip lines[i] ≠ "" ∧ decodeLine (pyStrip lines[i]) = .ok recs[i]) :
    (∀ n : Nat, (runCalls n ⟨some p, lines, 0⟩).1 =
      (recs.take n).map (fun r => Except.ok (some r)) ++
        List.replicate (n - recs.length) (Except.ok none)) ∧
    (∀ s : Session, (next_yt_result s).1 = .ok none ↔
      s.proc = none ∨ (∃ q, s.proc = some q ∧ q.stdoutPiped = false) ∨
        pyStrip (readLine s) = "") := by
  constructor
  · intro n
    simpa using runCalls_stream_aux p lines recs hp hlen hdec n 0
  · intro s
    cases hq : s.proc with
    | none => simp [next_yt_result, hq]
    | some q =>
      by_cases hpip : q.stdoutPiped = false
      · simp [next_yt_result, hq, hpip]
      · have hpip' : q.stdoutPiped = true := by simpa using hpip
        by_cases hline : pyStrip (readLine s) = ""
        · simp [next_yt_result, hq, hpip', hline]
        · cases hd : decodeLine (pyStrip (readLine s)) with
          | error e => simp [next_yt_result, hq, hpip', hline, hd]
          | ok r => simp [next_yt_result, hq, hpip', hline, hd]

/-- Witness for C2: two well-formed lines yield their two records and then
the no-result signal. -/
theorem next_results_exactly_k_witness :
    (runCalls 3 ⟨some freshHandle,
        ["\x7b\"url\": \"u\", \"title\": \"t\", \"id\": \"i\", \"thumbnail\": \"th\"\x7d\n",
         "\x7b\"url\": \"v\", \"title\": \"s\", \"id\": \"j\", \"thumbnail\": \"uh\"\x7d\n"], 0⟩).1 =
      [.ok (some ⟨.str "u", .str "t", .str "i", .str "th"⟩),
       .ok (some ⟨.str "v", .str "s", .str "j", .str "uh"⟩), .ok none] := by
  refine ((next_results_exactly_k freshHandle _
      [⟨.str "u", .str "t", .str "i", .str "th"⟩, ⟨.str "v", .str "s", .str "j", .str "uh"⟩]
      rfl rfl ?_).1 3).trans ?_
  · intro i h h'
    match i, h with
    | 0, _ => exact ⟨of_decide_eq_true rfl, rfl⟩
    | 1, _ => exact ⟨of_decide_eq_true rfl, rfl⟩
    | n + 2, h => exact absurd h (by simp only [List.length_cons, List.length_nil]; omega)
  · rfl

/-- Helper for C6: once the read position has passed every line, every
call returns the no-result signal. -/
theorem runCalls_past_eof (n : Nat) :
    ∀ s : Session, s.lines.length ≤ s.pos →
      (runCalls n s).1 = List.replicate n (.ok none) := by
  induction n with
  | zero => intro s _; rfl
  | succ n ih =>
    intro s h
    cases hq : s.proc with
    | none =>
      have : (runCalls (n + 1) s).1 = .ok none :: (runCalls n s).1 := by
        simp [runCalls, next_yt_result, hq]
      rw [this, ih s h, List.replicate_succ]
    | some q =>
      by_cases hpip : q.stdoutPiped = false
      · have : (runCalls (n + 1) s).1 = .ok none :: (runCalls n s).1 := by
          simp [runCalls, next_yt_result, hq, hpip]
        rw [this, ih s h, List.replicate_succ]
      · have hpip' : q.stdoutPiped = true := by simpa using hpip
        have hnil : s.lines[s.pos]? = none := List.getElem?_eq_none h
        have hr : next_yt_result s = (.ok none, ⟨s.proc, s.lines, s.pos + 1⟩) := by
          simp [next_yt_result, hq, hpip', readLine, List.getD, hnil, pyStrip]
        have : (runCalls (n + 1) s).1 =
            .ok none :: (runCalls n ⟨s.proc, s.lines, s.pos + 1⟩).1 := by
          simp [runCalls, hr]
        rw [this, ih ⟨s.proc, s.lines, s.pos + 1⟩ (by simpa using Nat.le_succ_of_le h),
          List.replicate_succ]

/-- C6: once a `next_yt_result` call observes the end-of-stream sentinel
(`readline` returning the empty string, which happens only at end of
stream since every delivered line is nonempty), that call and every later
call on the session return the no-result signal. -/
theorem drained_session_stays_drained (s : Session)
    (hne : ∀ l ∈ s.lines, l ≠ "") (hEof : readLine s = "") :
    ∀ n : Nat, (runCalls n s).1 = List.replicate n (.ok none) := by
  have hpos : s.lines.length ≤ s.pos := by
    by_contra hlt
    push_neg at hlt
    have hget : readLine s = s.lines[s.pos] := by
      simp [readLine, List.getD, List.getElem?_eq_getElem hlt]
    exact hne _ (List.getElem_mem hlt) (by rw [← hget, hEof])
  intro n
  exact runCalls_past_eof n s hpos

/-- Witness for C6: a session already past its single line keeps
returning `None`. -/
theorem drained_session_stays_drained_witness :
    (runCalls 2 ⟨some freshHandle, ["x"], 1⟩).1 = List.replicate 2 (.ok none) :=
  drained_session_stays_drained ⟨some freshHandle, ["x"], 1⟩ (by decide) rfl 2

/-- Inductive invariant of the two-reader interleaving: whoever is inside
the read critical section owns the lock, every recorded read index is
below the stream position, and the two tasks never record the same
index. -/
def RInv (s : RState) : Prop :=
  (∀ t : Fin 2, (s.pc t = .locked ∨ s.pc t = .haveRead) → s.lock = some t) ∧
  (∀ (t : Fin 2) (i : Nat), s.res t = some i → i < s.pos) ∧
  (∀ i : Nat, ¬(s.res 0 = some i ∧ s.res 1 = some i))

/-- The invariant holds initially. -/
theorem rinv_init : RInv RInit := by
  refine ⟨?_, ?_, ?_⟩ <;> intro t <;> simp [RInit]

/-- The invariant is preserved by every event-loop step. -/
theorem rinv_step {s s' : RState} (h : RInv s) (hs : RStep s s') : RInv s' := by
  obtain ⟨hlock, hbound, hdist⟩ := h
  cases hs with
  | acquire t hpc hl =>
    refine ⟨?_, hbound, hdist⟩
    intro t' ht'
    dsimp only at ht' ⊢
    by_cases he : t' = t
    · subst he; rfl
    · rw [Function.update_noteq he] at ht'
      have hcontra := hlock t' ht'
      rw [hl] at hcontra
      exact absurd hcontra (by simp)
  | read t hpc hl =>
    refine ⟨?_, ?_, ?_⟩
    · intro t' ht'
      dsimp only at ht' ⊢
      by_cases he : t' = t
      · subst he; exact hl
      · rw [Function.update_noteq he] at ht'
        exact hlock t' ht'
    · intro t' i hres
      dsimp only at hres ⊢
      by_cases he : t' = t
      · subst he
        rw [Function.update_same] at hres
        cases hres
        exact Nat.lt_succ_self _
      · rw [Function.update_noteq he] at hres
        exact Nat.lt_succ_of_lt (hbound t' i hres)
    · rintro i ⟨h0, h1⟩
      dsimp only at h0 h1
      fin_cases t
      · rw [show ((⟨0, by omega⟩ : Fin 2) : Fin 2) = 0 from rfl] at h0 h1
        rw [Function.update_same] at h0
        cases h0
        rw [Function.update_noteq (by decide)] at h1
        exact absurd (hbound 1 _ h1) (lt_irrefl _)
      · rw [show ((⟨1, by omega⟩ : Fin 2) : Fin 2) = 1 from rfl] at h0 h1
        rw [Function.update_same] at h1
        cases h1
        rw [Function.update_noteq (by decide)] at h0
        exact absurd (hbound 0 _ h0) (lt_irrefl _)
  | release t hpc hl =>
    refine ⟨?_, hbound, hdist⟩
    intro t' ht'
    dsimp only at ht' ⊢
    by_cases he : t' = t
    · subst he
      rw [Function.update_same] at ht'
      rcases ht' with h | h <;> cases h
    · rw [Function.update_noteq he] at ht'
      have hcontra := hlock t' ht'
      rw [hl] at hcontra
      exact absurd (Option.some.inj hcontra) (fun hh => he hh.symm)

/-- C3: in every state the event loop can reach with two concurrent
`next_yt_result` callers, the two tasks have never consumed the same line
index (no line is returned twice), and at most one task is inside the
locked read section at a time (single reader, no interleaved partial
reads). -/
theorem concurrent_next_result_single_reader (s : RState) (h : RReachable s) :
    (∀ i : Nat, ¬(s.res 0 = some i ∧ s.res 1 = some i)) ∧
    ¬((s.pc 0 = .locked ∨ s.pc 0 = .haveRead) ∧
      (s.pc 1 = .locked ∨ s.pc 1 = .haveRead)) := by
  have hinv : RInv s := by
    induction h with
    | refl => exact rinv_init
    | tail _ hstep ih => exact rinv_step ih hstep
  refine ⟨hinv.2.2, ?_⟩
  rintro ⟨h0, h1⟩
  have e0 := hinv.1 0 h0
  have e1 := hinv.1 1 h1
  exact absurd (Option.some.inj (e0.symm.trans e1)) (by decide)

/-- Witness for C3 at the initial (reachable) state. -/
theorem concurrent_next_result_single_reader_witness :
    ¬(RInit.res 0 = some 0 ∧ RInit.res 1 = some 0) :=
  (concurrent_next_result_single_reader RInit Relation.ReflTransGen.refl).1 0

/-- Removing the `.json` extension recovers the backup name, whatever the
timestamp contains. -/
theorem rsplitDot1_append_json (x : String) : rsplitDot1 (x ++ ".json") = x := by
  obtain ⟨d⟩ := x
  have hdata : (String.mk d ++ ".json").data = d ++ ['.', 'j', 's', 'o', 'n'] := rfl
  have hrev : (d ++ ['.', 'j', 's', 'o', 'n']).reverse =
      'n' :: 'o' :: 's' :: 'j' :: '.' :: d.reverse := by
    rw [List.reverse_append]; rfl
  simp [rsplitDot1, hdata, hrev, List.dropWhile]

/-- Reading back the file just written yields the written content. -/
theorem fsRead_fsWrite (d : CacheDir) (name content : String) :
    fsRead (fsWrite d name content) name = some content := by
  unfold fsRead fsWrite
  rw [List.find?_append]
  have h1 : (d.files.filter (fun p => p.1 != name)).find? (fun p => p.1 == name) = none := by
    rw [List.find?_eq_none]
    intro x hx
    have hne := (List.mem_filter.mp hx).2
    simp at hne ⊢
    exact hne
  rw [h1]
  simp

/-- C10: exporting a serializable snapshot puts a name in
`list_cache_backups` whose `import_cache` returns the snapshot itself
(the filename round-trips through `rsplit(".", 1)[0]` and re-appending
`.json`; the content round-trips through `json.dump`/`json.load`). -/
theorem cache_export_import_roundtrip (now : String) (S : Json) (d : CacheDir)
    (hser : json_loads (json_dumps S) = .ok S) :
    ("backup-" ++ now) ∈ list_cache_backups (some (export_cache now S d)) ∧
    import_cache (export_cache now S d) ("backup-" ++ now) = .ok S := by
  constructor
  · unfold list_cache_backups export_cache fsWrite
    dsimp only
    rw [List.map_append]
    apply List.mem_append_right
    simp [rsplitDot1_append_json]
  · unfold import_cache export_cache
    rw [fsRead_fsWrite]
    dsimp only
    exact hser

/-- Witness for C10: the snapshot from the spec's test property. -/
theorem cache_export_import_roundtrip_witness :
    ("backup-" ++ "2026-10-12 10:30") ∈
      list_cache_backups
        (some (export_cache "2026-10-12 10:30" (.obj [("a", .num "1")]) ⟨[]⟩)) ∧
    import_cache (export_cache "2026-10-12 10:30" (.obj [("a", .num "1")]) ⟨[]⟩)
        ("backup-" ++ "2026-10-12 10:30") = .ok (.obj [("a", .num "1")]) :=
  cache_export_import_roundtrip "2026-10-12 10:30" (.obj [("a", .num "1")]) ⟨[]⟩ rfl

end GameThemeMusic
